import Mathlib

/-!
Verification of the ai-coder VS Code extension (shallow embedding).

The embedding translates the relevant TypeScript sources into Lean:

* src/src/ai/anthropic-aiProvider.ts — class AnthropicProvider:
  sortContextItemsByRelevance, createContextBatches, countContextItemTokens,
  countTokens, processRequestWithContext (retry logic).
* src/src/ai/gemini-aiProvider.ts — class GeminiProvider: the same five
  functions (near-duplicates of the Anthropic ones).
* src/src/context/contextManager.ts — class ContextManager: addToHistory,
  constructor, addToSelectedContext, removeFromSelectedContext,
  clearSelectedContext, getSelectedContextItems, sanitizePathForKey.

Modelling conventions:

* TypeScript `string | ContextItem` becomes the sum type `ContextEntry`.
* The external tokenizer (`encode` from the gpt-tokenizer package) is a
  parameter; it either yields a token list or throws (`Except`).
  Functions that only consume token *counts* take the already-composed
  counter `count : String → Nat` as a parameter, matching `this.countTokens`.
* The vendor API call (`anthropic.messages.create` + stream consumption,
  resp. `model.generateContentStream`) is a parameter
  `send : List ContextEntry → Except ApiError String`: given the context
  items of the request it either produces the full response text or throws.
  A thrown JS error is modelled by `ApiError` (its `message` string and the
  optional numeric `status` property inspected by the catch handlers).
* `Array.prototype.sort` is modelled as a stable merge sort
  (`List.mergeSort`); ECMAScript requires `sort` to be stable.  The source
  copies the array (`[...contextItems]`) before sorting, so the input is
  never mutated; the Lean embedding is pure, which models exactly that.
* VS Code `globalState` is a string-keyed store `String → Option StoredValue`;
  `update` is functional override.  The filesystem (`fs.existsSync`,
  `fs.statSync(..).isDirectory()`), `path.normalize`, the directory analyzer
  and `new Date().toISOString()` are environment parameters (`Env`).
-/

/-! ## Data model: src/src/ai/context-item.ts -/

/-- ContextItem.type: "file" | "selection" | "text" | "current-file". -/
inductive ItemType where
  | file
  | selection
  | text
  | currentFile
deriving DecidableEq, Repr

/-- Optional metadata record of a ContextItem. -/
structure ContextItemMetadata where
  fileName : Option String := none
  language : Option String := none
  path : Option String := none
  lineStart : Option Nat := none
  lineEnd : Option Nat := none
deriving DecidableEq, Repr

/-- ContextItem from src/src/ai/context-item.ts. -/
structure ContextItem where
  type : ItemType
  content : String
  metadata : Option ContextItemMetadata := none
deriving DecidableEq, Repr

/-- A value of TypeScript type `string | ContextItem`. -/
inductive ContextEntry where
  | str (s : String)
  | item (it : ContextItem)
deriving DecidableEq, Repr

/-- A JavaScript Error as inspected by the providers' catch handlers:
its `message` and the optional `status` property (`(error as any)?.status`). -/
structure ApiError where
  message : String
  status : Option Nat := none
deriving DecidableEq, Repr

/-! ## String helpers used by the embedding -/

/-- JavaScript `String.prototype.toLowerCase`, modelled characterwise. -/
def toLowerCase (s : String) : String := ⟨s.data.map Char.toLower⟩

/-- JavaScript `String.prototype.includes`: substring containment. -/
def strIncludes (s pat : String) : Bool := decide (pat.data <:+: s.data)

/-! ## Token counting (both providers, identical code)

`countTokens` calls the external `encode` and falls back to
`Math.ceil(text.length / 4)` when it throws.  `Math.ceil` of the JS number
division is the rational ceiling. -/

/-- countTokens from anthropic-aiProvider.ts lines 607-615 and
gemini-aiProvider.ts lines 498-506, with the external tokenizer `encode`
as a parameter (it returns the token list or throws). -/
def countTokens (encode : String → Except String (List Nat)) (text : String) : Nat :=
  match encode text with
  | .ok tokens => tokens.length
  | .error _ => (⌈(text.length : ℚ) / 4⌉).toNat

/-- countContextItemTokens (both providers): a raw string is counted
directly, a ContextItem by its `content`.  The composed string counter
`count` stands for `this.countTokens`. -/
def countContextItemTokens (count : String → Nat) : ContextEntry → Nat
  | .str s => count s
  | .item it => count it.content

/-- Total token count of a batch: the sum of `countContextItemTokens`
over its elements. -/
def batchTokens (count : String → Nat) (batch : List ContextEntry) : Nat :=
  (batch.map (countContextItemTokens count)).sum

/-! ## Relevance sort (both providers, identical code) -/

/-- Test `typeof a !== "string" && a.type === "current-file"`. -/
def isCurrentFileEntry : ContextEntry → Bool
  | .str _ => false
  | .item it => it.type == ItemType.currentFile

/-- Test `typeof a !== "string" && a.metadata?.fileName` (JS truthiness:
the property must exist and be a non-empty string). -/
def hasTruthyFileName : ContextEntry → Bool
  | .str _ => false
  | .item it =>
    match it.metadata with
    | none => false
    | some m =>
      match m.fileName with
      | none => false
      | some s => !(s == "")

/-- The comparator passed to `items.sort` in sortContextItemsByRelevance
(anthropic-aiProvider.ts lines 533-544, gemini-aiProvider.ts 425-435). -/
def relevanceCompare (a b : ContextEntry) : Int :=
  if isCurrentFileEntry a then -1
  else if isCurrentFileEntry b then 1
  else if hasTruthyFileName a then -1
  else if hasTruthyFileName b then 1
  else 0

/-- The `le` relation induced by the comparator (a before b when the
comparator does not order b strictly before a). -/
def relevanceLe (a b : ContextEntry) : Bool := relevanceCompare a b ≤ 0

/-- Priority class of an entry under the comparator: current-file items
first, then items with a truthy metadata fileName, then everything else. -/
def relevanceRank (e : ContextEntry) : Nat :=
  if isCurrentFileEntry e then 0 else if hasTruthyFileName e then 1 else 2

namespace AnthropicProvider

/-- MAX_TOKENS_PER_REQUEST, anthropic-aiProvider.ts line 16. -/
def MAX_TOKENS_PER_REQUEST : Nat := 100000

/-- MAX_FILES_PER_BATCH, anthropic-aiProvider.ts line 17. -/
def MAX_FILES_PER_BATCH : Nat := 10

/-- sortContextItemsByRelevance, anthropic-aiProvider.ts lines 526-545:
copy the array and sort it with the relevance comparator;
`Array.prototype.sort` is modelled as a stable merge sort. -/
def sortContextItemsByRelevance (contextItems : List ContextEntry) : List ContextEntry :=
  contextItems.mergeSort relevanceLe

/-- Loop of createContextBatches (anthropic-aiProvider.ts lines 566-588)
over the remaining items, carrying `currentBatch` and `currentBatchTokens`.
On exit the last batch is pushed if non-empty. -/
def createContextBatchesGo (count : String → Nat) (maxTokensPerBatch : Int) :
    List ContextEntry → List ContextEntry → Nat → List (List ContextEntry)
  | [], currentBatch, _ =>
    if 0 < currentBatch.length then [currentBatch] else []
  | item :: rest, currentBatch, currentBatchTokens =>
    let itemTokens := countContextItemTokens count item
    if ((currentBatchTokens : Int) + (itemTokens : Int) > maxTokensPerBatch)
        ∨ (MAX_FILES_PER_BATCH ≤ currentBatch.length) then
      currentBatch :: createContextBatchesGo count maxTokensPerBatch rest [item] itemTokens
    else
      createContextBatchesGo count maxTokensPerBatch rest
        (currentBatch ++ [item]) (currentBatchTokens + itemTokens)

/-- createContextBatches, anthropic-aiProvider.ts lines 550-591: the first
item always enters the first batch; each further item is appended to the
current batch unless that would exceed the token budget or the batch-size
cap, in which case the current batch is emitted and a new one is started. -/
def createContextBatches (count : String → Nat) (contextItems : List ContextEntry)
    (maxTokensPerBatch : Int) : List (List ContextEntry) :=
  match contextItems with
  | [] => []
  | firstItem :: rest =>
    createContextBatchesGo count maxTokensPerBatch rest [firstItem]
      (countContextItemTokens count firstItem)

/-- Rate-limit test of the Anthropic catch handler (anthropic-aiProvider.ts
lines 390-396): lowercased message contains "overloaded" or "rate limit",
or the error's `status` is 429. -/
def isRateLimitError (e : ApiError) : Bool :=
  let errorMessage := toLowerCase e.message
  strIncludes errorMessage "overloaded" || strIncludes errorMessage "rate limit"
    || e.status == some 429

/-- processRequestWithContext, anthropic-aiProvider.ts lines 344-429,
reduced to its control flow on the request outcome: on success return the
streamed text; on a rate-limit error with more than one context item retry
(recursively) with the first `Math.ceil(n / 2)` items; otherwise rethrow. -/
def processRequestWithContext (send : List ContextEntry → Except ApiError String)
    (contextItems : List ContextEntry) : Except ApiError String :=
  match send contextItems with
  | .ok text => .ok text
  | .error e =>
    if h : isRateLimitError e = true ∧ 1 < contextItems.length then
      processRequestWithContext send
        (contextItems.take ((contextItems.length + 1) / 2))
    else
      .error e
termination_by contextItems.length
decreasing_by
  simp only [List.length_take]
  omega

end AnthropicProvider

namespace GeminiProvider

/-- MAX_TOKENS_PER_REQUEST, gemini-aiProvider.ts line 15. -/
def MAX_TOKENS_PER_REQUEST : Nat := 30000

/-- MAX_FILES_PER_BATCH, gemini-aiProvider.ts line 16. -/
def MAX_FILES_PER_BATCH : Nat := 10

/-- sortContextItemsByRelevance, gemini-aiProvider.ts lines 418-436
(duplicate of the Anthropic version). -/
def sortContextItemsByRelevance (contextItems : List ContextEntry) : List ContextEntry :=
  contextItems.mergeSort relevanceLe

/-- Loop of createContextBatches, gemini-aiProvider.ts lines 457-479
(duplicate of the Anthropic version). -/
def createContextBatchesGo (count : String → Nat) (maxTokensPerBatch : Int) :
    List ContextEntry → List ContextEntry → Nat → List (List ContextEntry)
  | [], currentBatch, _ =>
    if 0 < currentBatch.length then [currentBatch] else []
  | item :: rest, currentBatch, currentBatchTokens =>
    let itemTokens := countContextItemTokens count item
    if ((currentBatchTokens : Int) + (itemTokens : Int) > maxTokensPerBatch)
        ∨ (MAX_FILES_PER_BATCH ≤ currentBatch.length) then
      currentBatch :: createContextBatchesGo count maxTokensPerBatch rest [item] itemTokens
    else
      createContextBatchesGo count maxTokensPerBatch rest
        (currentBatch ++ [item]) (currentBatchTokens + itemTokens)

/-- createContextBatches, gemini-aiProvider.ts lines 441-482 (duplicate of
the Anthropic version). -/
def createContextBatches (count : String → Nat) (contextItems : List ContextEntry)
    (maxTokensPerBatch : Int) : List (List ContextEntry) :=
  match contextItems with
  | [] => []
  | firstItem :: rest =>
    createContextBatchesGo count maxTokensPerBatch rest [firstItem]
      (countContextItemTokens count firstItem)

/-- Rate-limit test of the Gemini catch handler (gemini-aiProvider.ts
lines 274-279): lowercased message contains "quota", "rate limit" or
"resource exhausted".  Unlike the Anthropic handler it never inspects
the numeric `status` property. -/
def isRateLimitError (e : ApiError) : Bool :=
  let errorMessage := toLowerCase e.message
  strIncludes errorMessage "quota" || strIncludes errorMessage "rate limit"
    || strIncludes errorMessage "resource exhausted"

/-- processRequestWithContext, gemini-aiProvider.ts lines 228-312, reduced
to its control flow on the request outcome (duplicate of the Anthropic
version except for the rate-limit test). -/
def processRequestWithContext (send : List ContextEntry → Except ApiError String)
    (contextItems : List ContextEntry) : Except ApiError String :=
  match send contextItems with
  | .ok text => .ok text
  | .error e =>
    if h : isRateLimitError e = true ∧ 1 < contextItems.length then
      processRequestWithContext send
        (contextItems.take ((contextItems.length + 1) / 2))
    else
      .error e
termination_by contextItems.length
decreasing_by
  simp only [List.length_take]
  omega

end GeminiProvider

/-! ## ContextManager: src/src/context/contextManager.ts -/

namespace ContextManager

/-- An entry of `chatHistory`: `{ role, content }`. -/
structure HistoryEntry where
  role : String
  content : String
deriving DecidableEq, Repr

/-- addToHistory, contextManager.ts lines 32-39: push the new entry, then
drop the oldest (`shift`) when the list exceeds 20 entries.  The iteration
in src/unnamed/part_002 lines 55-62 is the same algorithm. -/
def addToHistory (chatHistory : List HistoryEntry) (role : String) (content : String) :
    List HistoryEntry :=
  let pushed := chatHistory ++ [⟨role, content⟩]
  if pushed.length > 20 then pushed.tail else pushed

/-- A record of the `files` array inside DirectoryMetadata. -/
structure FileRecord where
  path : String
  size : Nat
  type : String
  relevanceScore : Option Int := none
deriving DecidableEq, Repr

/-- DirectoryMetadata, contextManager.ts lines 6-15. -/
structure DirectoryMetadata where
  lastAnalyzed : String
  fileCount : Nat
  files : List FileRecord
deriving DecidableEq, Repr

/-- A value kept in VS Code `globalState`: either the persisted selected
paths or a directory-metadata record. -/
inductive StoredValue where
  | paths (items : List String)
  | dirMeta (m : DirectoryMetadata)
deriving DecidableEq, Repr

/-- Key under which the selected context is persisted. -/
def SELECTED_CONTEXT_KEY : String := "ai-coder.selectedContext"

/-- globalState.update modelled as functional override of the store. -/
def globalStateUpdate (store : String → Option StoredValue) (key : String)
    (v : StoredValue) : String → Option StoredValue :=
  fun k => if k = key then some v else store k

/-- sanitizePathForKey, contextManager.ts lines 466-469: replace every
occurrence of / \ : * ? " < > | by an underscore. -/
def sanitizePathForKey (p : String) : String :=
  ⟨p.data.map (fun c =>
    if c ∈ ['/', '\\', ':', '*', '?', '"', '<', '>', '|'] then '_' else c)⟩

/-- Storage key of a directory's metadata, contextManager.ts line 436. -/
def dirMetadataKey (p : String) : String :=
  "ai-coder.dirMetadata." ++ sanitizePathForKey p

/-- Environment of the ContextManager: the filesystem predicates, path
normalization, the directory analyzer (`analyzeDirectory` collects the
file records of a directory) and the current time, all external to the
algorithm under verification. -/
structure Env where
  pathExists : String → Bool
  isDirectory : String → Bool
  normalizePath : String → String
  analyzeDirectory : String → List FileRecord
  nowISOString : String

/-- In-memory and persisted state of a ContextManager (the chat history is
handled separately by addToHistory). -/
structure CMState where
  selectedContextItems : List String
  globalState : String → Option StoredValue

/-- Constructor, contextManager.ts lines 21-27: load the saved context and
keep only the paths that still exist.  The filtered list is not written
back to storage. -/
def mkContextManager (env : Env) (store : String → Option StoredValue) : CMState :=
  { selectedContextItems :=
      match store SELECTED_CONTEXT_KEY with
      | some (.paths savedContext) => savedContext.filter (fun item => env.pathExists item)
      | _ => []
    globalState := store }

/-- addToSelectedContext, contextManager.ts lines 403-461: bail out when
the path does not exist; normalize; when the normalized path is not yet
selected, pre-analyze directories (storing their metadata under a separate
key), append the path and persist the new list.  `fs.statSync` on the
normalized path of an existing file cannot fail in the deterministic
filesystem model, so the catch-and-return branch at lines 449-453 is
unreachable here. -/
def addToSelectedContext (env : Env) (st : CMState) (itemPath : String) : CMState :=
  if env.pathExists itemPath = false then st
  else
    let normalizedPath := env.normalizePath itemPath
    if st.selectedContextItems.contains normalizedPath then st
    else
      let st1 :=
        if env.isDirectory normalizedPath then
          let fileList := env.analyzeDirectory normalizedPath
          let metadata : DirectoryMetadata :=
            ⟨env.nowISOString, fileList.length, fileList⟩
          let newStore :=
            globalStateUpdate st.globalState (dirMetadataKey normalizedPath)
              (StoredValue.dirMeta metadata)
          { st with globalState := newStore }
        else st
      let newItems := st1.selectedContextItems ++ [normalizedPath]
      { selectedContextItems := newItems
        globalState :=
          globalStateUpdate st1.globalState SELECTED_CONTEXT_KEY (.paths newItems) }

/-- removeFromSelectedContext, contextManager.ts lines 700-704: filter the
path out (no normalization) and persist. -/
def removeFromSelectedContext (st : CMState) (itemPath : String) : CMState :=
  let newItems := st.selectedContextItems.filter (fun item => item ≠ itemPath)
  { selectedContextItems := newItems
    globalState := globalStateUpdate st.globalState SELECTED_CONTEXT_KEY (.paths newItems) }

/-- clearSelectedContext, contextManager.ts lines 709-713. -/
def clearSelectedContext (st : CMState) : CMState :=
  { selectedContextItems := []
    globalState := globalStateUpdate st.globalState SELECTED_CONTEXT_KEY (.paths []) }

/-- getSelectedContextItems, contextManager.ts lines 718-720 (returns a
copy; the embedding is pure). -/
def getSelectedContextItems (st : CMState) : List String :=
  st.selectedContextItems

/-- The persisted value under 'ai-coder.selectedContext' agrees with the
in-memory list. -/
def storageInSync (st : CMState) : Prop :=
  st.globalState SELECTED_CONTEXT_KEY = some (.paths (getSelectedContextItems st))

end ContextManager

/-! ## Concrete sample inputs used to instantiate the theorems -/

/-- A concrete token counter with the shape of the fallback estimator
(one token per four characters, rounded up). -/
def approxCount : String → Nat := fun s => (s.length + 3) / 4

/-- A small context entry (1 token under approxCount). -/
def entryA : ContextEntry := .str "aa"

/-- Another small context entry (1 token under approxCount). -/
def entryB : ContextEntry := .str "bb"

/-- An eight-character entry (2 tokens under approxCount). -/
def bigEntry : ContextEntry := .str "aaaaaaaa"

/-- A current-file context item. -/
def currentFileEntry : ContextEntry :=
  .item { type := ItemType.currentFile, content := "active file body" }

/-- A sample item list containing exactly one current-file item, not in
front. -/
def sampleItems : List ContextEntry := [entryA, currentFileEntry, entryB]

/-- An HTTP 429 error whose message mentions neither quota nor rate limit
nor resource exhaustion (the standard 429 reason phrase). -/
def rateLimit429Err : ApiError := { message := "Too Many Requests", status := some 429 }

/-- A request oracle that fails with rateLimit429Err whenever more than one
context item is attached and succeeds otherwise. -/
def send429 : List ContextEntry → Except ApiError String :=
  fun items => if items.length ≤ 1 then .ok "recovered" else .error rateLimit429Err

/-- A two-element context list. -/
def twoEntries : List ContextEntry := [entryA, entryB]

/-- An error that both providers classify as a rate limit (by message). -/
def retryErr : ApiError := { message := "Rate limit exceeded", status := none }

/-- A request oracle that fails with retryErr whenever more than one
context item is attached and succeeds otherwise. -/
def retrySend : List ContextEntry → Except ApiError String :=
  fun items => if items.length ≤ 1 then .ok "ok" else .error retryErr

/-- A tokenizer that always throws. -/
def brokenEncode : String → Except String (List Nat) := fun _ => .error "tokenizer failed"

/-- Environment in which only the path "a" exists and nothing is a
directory. -/
def ghostEnv : ContextManager.Env :=
  { pathExists := fun p => p == "a"
    isDirectory := fun _ => false
    normalizePath := id
    analyzeDirectory := fun _ => []
    nowISOString := "2025-01-01T00:00:00.000Z" }

/-- A stored state whose saved selection ["a", "b"] mentions the
non-existent path "b". -/
def ghostStore : String → Option ContextManager.StoredValue :=
  fun k =>
    if k = ContextManager.SELECTED_CONTEXT_KEY then
      some (.paths ["a", "b"])
    else none

/-- The manager constructed over ghostStore: in memory it keeps only "a",
while storage still holds ["a", "b"]. -/
def ghostState : ContextManager.CMState :=
  ContextManager.mkContextManager ghostEnv ghostStore

/-- Environment in which only the path "x" exists. -/
def probeEnv : ContextManager.Env :=
  { pathExists := fun p => p == "x"
    isDirectory := fun _ => false
    normalizePath := id
    analyzeDirectory := fun _ => []
    nowISOString := "2025-01-01T00:00:00.000Z" }

/-- A manager state that already holds "x", with empty storage. -/
def probeState : ContextManager.CMState :=
  { selectedContextItems := ["x"], globalState := fun _ => none }

/-! ## Helper lemmas -/

/-- Math.ceil of an integer length divided by 4, expressed as natural
division. -/
theorem ceil_div_four_toNat (L : ℕ) : (⌈(L : ℚ) / 4⌉).toNat = (L + 3) / 4 := by
  have h4 : (0 : ℚ) < 4 := by norm_num
  have hc : (⌈(L : ℚ) / 4⌉ : ℤ) = ((L : ℤ) + 3) / 4 := by
    rw [Int.ceil_eq_iff]
    constructor
    · rw [lt_div_iff₀ h4]
      have key1 : (((L : ℤ) + 3) / 4 - 1) * 4 < (L : ℤ) := by omega
      exact_mod_cast key1
    · rw [div_le_iff₀ h4]
      have key2 : (L : ℤ) ≤ (((L : ℤ) + 3) / 4) * 4 := by omega
      exact_mod_cast key2
  omega

theorem batchTokens_append (count : String → Nat) (l : List ContextEntry) (x : ContextEntry) :
    batchTokens count (l ++ [x]) = batchTokens count l + countContextItemTokens count x := by
  simp [batchTokens]

theorem batchTokens_singleton (count : String → Nat) (x : ContextEntry) :
    batchTokens count [x] = countContextItemTokens count x := by
  simp [batchTokens]

/-- The comparator-induced order is exactly comparison of priority ranks. -/
theorem relevanceLe_iff (a b : ContextEntry) :
    relevanceLe a b = true ↔ relevanceRank a ≤ relevanceRank b := by
  unfold relevanceLe relevanceCompare relevanceRank
  cases h1 : isCurrentFileEntry a <;> cases h2 : isCurrentFileEntry b <;>
    cases h3 : hasTruthyFileName a <;> cases h4 : hasTruthyFileName b <;>
      simp

theorem relevanceLe_total (a b : ContextEntry) :
    (relevanceLe a b || relevanceLe b a) = true := by
  rw [Bool.or_eq_true]
  rcases Nat.le_total (relevanceRank a) (relevanceRank b) with h | h
  · exact Or.inl ((relevanceLe_iff a b).mpr h)
  · exact Or.inr ((relevanceLe_iff b a).mpr h)

theorem relevanceLe_trans (a b c : ContextEntry)
    (h1 : relevanceLe a b = true) (h2 : relevanceLe b c = true) :
    relevanceLe a c = true :=
  (relevanceLe_iff a c).mpr
    (Nat.le_trans ((relevanceLe_iff a b).mp h1) ((relevanceLe_iff b c).mp h2))

/-- In a merge-sorted list, when a unique current-file item is present it
is the head. -/
theorem mergeSort_relevance_head (items : List ContextEntry) (x : ContextEntry)
    (hmem : x ∈ items) (hcf : isCurrentFileEntry x = true)
    (hone : items.countP isCurrentFileEntry = 1) :
    (items.mergeSort relevanceLe).head? = some x := by
  have hperm := List.mergeSort_perm items relevanceLe
  have hsorted := List.sorted_mergeSort relevanceLe_trans relevanceLe_total items
  have hxL : x ∈ items.mergeSort relevanceLe := List.mem_mergeSort.mpr hmem
  cases hL : items.mergeSort relevanceLe with
  | nil => rw [hL] at hxL; simp at hxL
  | cons y rest =>
    rw [hL] at hxL hsorted hperm
    rcases List.mem_cons.mp hxL with rfl | hxrest
    · simp
    · exfalso
      have hley : relevanceLe y x = true := (List.pairwise_cons.mp hsorted).1 x hxrest
      have hranky : relevanceRank y ≤ relevanceRank x := (relevanceLe_iff y x).mp hley
      have hrankx : relevanceRank x = 0 := by simp [relevanceRank, hcf]
      have hy0 : relevanceRank y = 0 := by omega
      have hycf : isCurrentFileEntry y = true := by
        unfold relevanceRank at hy0
        cases hh : isCurrentFileEntry y
        · rw [hh] at hy0; simp at hy0; split at hy0 <;> omega
        · rfl
      have hcount : (y :: rest).countP isCurrentFileEntry = 1 := by
        rw [hperm.countP_eq isCurrentFileEntry, hone]
      rw [List.countP_cons_of_pos _ _ hycf] at hcount
      have hpos : 0 < rest.countP isCurrentFileEntry :=
        List.countP_pos_iff.mpr ⟨x, hxrest, hcf⟩
      omega

/-- Invariant of the Anthropic batching loop: starting from a non-empty
current batch within both caps, every emitted batch is non-empty, has at
most MAX_FILES_PER_BATCH items, fits under the budget whenever it has at
least two items, and the emitted batches concatenate to the processed
items. -/
theorem anthropic_go_spec (count : String → Nat) (maxT : Int) :
    ∀ (rest cur : List ContextEntry) (tok : Nat),
      tok = batchTokens count cur →
      cur ≠ [] →
      cur.length ≤ AnthropicProvider.MAX_FILES_PER_BATCH →
      (2 ≤ cur.length → (batchTokens count cur : Int) ≤ maxT) →
      (∀ b ∈ AnthropicProvider.createContextBatchesGo count maxT rest cur tok,
          b ≠ [] ∧ b.length ≤ AnthropicProvider.MAX_FILES_PER_BATCH ∧
            (2 ≤ b.length → (batchTokens count b : Int) ≤ maxT)) ∧
        (AnthropicProvider.createContextBatchesGo count maxT rest cur tok).flatten
          = cur ++ rest := by
  intro rest
  induction rest with
  | nil =>
    intro cur tok htok hne hlen hbound
    have hpos : 0 < cur.length := List.length_pos.mpr hne
    constructor
    · intro b hb
      simp only [AnthropicProvider.createContextBatchesGo, if_pos hpos] at hb
      rw [List.mem_singleton] at hb
      subst hb
      exact ⟨hne, hlen, hbound⟩
    · simp only [AnthropicProvider.createContextBatchesGo, if_pos hpos]
      simp
  | cons item rest ih =>
    intro cur tok htok hne hlen hbound
    simp only [AnthropicProvider.createContextBatchesGo]
    by_cases hc : ((tok : Int) + (countContextItemTokens count item : Int) > maxT)
        ∨ (AnthropicProvider.MAX_FILES_PER_BATCH ≤ cur.length)
    · rw [if_pos hc]
      have ihres := ih [item] (countContextItemTokens count item)
        (by simp [batchTokens])
        (by simp)
        (by simp [AnthropicProvider.MAX_FILES_PER_BATCH])
        (by intro h2; simp at h2)
      constructor
      · intro b hb
        rcases List.mem_cons.mp hb with rfl | hb
        · exact ⟨hne, hlen, hbound⟩
        · exact ihres.1 b hb
      · rw [List.flatten_cons, ihres.2]
        simp
    · rw [if_neg hc]
      push_neg at hc
      obtain ⟨hc1, hc2⟩ := hc
      have hlen10 : cur.length < AnthropicProvider.MAX_FILES_PER_BATCH := hc2
      have ihres := ih (cur ++ [item]) (tok + countContextItemTokens count item)
        (by rw [htok, batchTokens_append])
        (by simp)
        (by simpa using hlen10)
        (by
          intro _
          rw [batchTokens_append, ← htok]
          push_cast
          omega)
      refine ⟨ihres.1, ?_⟩
      rw [ihres.2]
      simp

/-- The Gemini batching loop is the same function as the Anthropic one. -/
theorem createContextBatchesGo_eq (count : String → Nat) (maxT : Int) :
    ∀ (rest cur : List ContextEntry) (tok : Nat),
      GeminiProvider.createContextBatchesGo count maxT rest cur tok
        = AnthropicProvider.createContextBatchesGo count maxT rest cur tok := by
  intro rest
  induction rest with
  | nil =>
    intro cur tok
    simp only [AnthropicProvider.createContextBatchesGo,
      GeminiProvider.createContextBatchesGo]
  | cons item rest ih =>
    intro cur tok
    simp only [AnthropicProvider.createContextBatchesGo,
      GeminiProvider.createContextBatchesGo,
      AnthropicProvider.MAX_FILES_PER_BATCH, GeminiProvider.MAX_FILES_PER_BATCH]
    by_cases hc : ((tok : Int) + (countContextItemTokens count item : Int) > maxT)
        ∨ (10 ≤ cur.length)
    · rw [if_pos hc, if_pos hc, ih]
    · rw [if_neg hc, if_neg hc, ih]

/-- The two providers' createContextBatches agree (shared helper). -/
theorem createContextBatches_eq (count : String → Nat) (items : List ContextEntry)
    (maxT : Int) :
    GeminiProvider.createContextBatches count items maxT
      = AnthropicProvider.createContextBatches count items maxT := by
  cases items with
  | nil => rfl
  | cons f rest =>
    simp only [AnthropicProvider.createContextBatches,
      GeminiProvider.createContextBatches, createContextBatchesGo_eq]

/-- Batch structure of Anthropic's createContextBatches (shared helper). -/
theorem anthropic_createContextBatches_spec (count : String → Nat)
    (items : List ContextEntry) (maxT : Int) :
    (∀ b ∈ AnthropicProvider.createContextBatches count items maxT,
        b ≠ [] ∧ b.length ≤ AnthropicProvider.MAX_FILES_PER_BATCH ∧
          (2 ≤ b.length → (batchTokens count b : Int) ≤ maxT)) ∧
      (AnthropicProvider.createContextBatches count items maxT).flatten = items := by
  cases items with
  | nil => simp [AnthropicProvider.createContextBatches]
  | cons f rest =>
    have h := anthropic_go_spec count maxT rest [f] (countContextItemTokens count f)
      (by simp [batchTokens])
      (by simp)
      (by simp [AnthropicProvider.MAX_FILES_PER_BATCH])
      (by intro h2; simp at h2)
    simp only [AnthropicProvider.createContextBatches]
    refine ⟨h.1, ?_⟩
    rw [h.2]
    simp

/-- One unfolding of the Anthropic retry handler on a failed request. -/
theorem anthropic_processRequest_error (send : List ContextEntry → Except ApiError String)
    (items : List ContextEntry) (e : ApiError) (h : send items = .error e) :
    AnthropicProvider.processRequestWithContext send items =
      if AnthropicProvider.isRateLimitError e = true ∧ 1 < items.length then
        AnthropicProvider.processRequestWithContext send
          (items.take ((items.length + 1) / 2))
      else .error e := by
  rw [AnthropicProvider.processRequestWithContext, h]
  simp

/-- One unfolding of the Anthropic retry handler on a successful request. -/
theorem anthropic_processRequest_ok (send : List ContextEntry → Except ApiError String)
    (items : List ContextEntry) (t : String) (h : send items = .ok t) :
    AnthropicProvider.processRequestWithContext send items = .ok t := by
  rw [AnthropicProvider.processRequestWithContext, h]

/-- One unfolding of the Gemini retry handler on a failed request. -/
theorem gemini_processRequest_error (send : List ContextEntry → Except ApiError String)
    (items : List ContextEntry) (e : ApiError) (h : send items = .error e) :
    GeminiProvider.processRequestWithContext send items =
      if GeminiProvider.isRateLimitError e = true ∧ 1 < items.length then
        GeminiProvider.processRequestWithContext send
          (items.take ((items.length + 1) / 2))
      else .error e := by
  rw [GeminiProvider.processRequestWithContext, h]
  simp

/-- One unfolding of the Gemini retry handler on a successful request. -/
theorem gemini_processRequest_ok (send : List ContextEntry → Except ApiError String)
    (items : List ContextEntry) (t : String) (h : send items = .ok t) :
    GeminiProvider.processRequestWithContext send items = .ok t := by
  rw [GeminiProvider.processRequestWithContext, h]

/-! ## Claim theorems -/

/-- C1 (counterexample): the claim "every batch fits under the token
budget" fails as stated: a single context item of 2 tokens with a budget
of 1 is returned as a batch of 2 tokens, exceeding the budget, because
createContextBatches always places the first item into the first batch
regardless of its size. -/
theorem createContextBatches_budget_counterexample :
    AnthropicProvider.createContextBatches approxCount [bigEntry] 1 = [[bigEntry]] ∧
      (batchTokens approxCount [bigEntry] : Int) > 1 := by
  constructor
  · rfl
  · decide

/-- C1 (amended): every batch produced by either provider's
createContextBatches fits under the token budget unless it is a singleton
batch whose sole item alone already exceeds the budget; in particular
every batch with at least two items fits. -/
theorem createContextBatches_token_bound :
    ∀ (count : String → Nat) (items : List ContextEntry) (maxT : Int)
      (b : List ContextEntry),
      (b ∈ AnthropicProvider.createContextBatches count items maxT ∨
        b ∈ GeminiProvider.createContextBatches count items maxT) →
      (batchTokens count b : Int) ≤ maxT ∨
        ∃ x, b = [x] ∧ (countContextItemTokens count x : Int) > maxT := by
  intro count items maxT b hb
  have hbA : b ∈ AnthropicProvider.createContextBatches count items maxT := by
    rcases hb with hb | hb
    · exact hb
    · rwa [createContextBatches_eq] at hb
  obtain ⟨hne, -, hbound⟩ := (anthropic_createContextBatches_spec count items maxT).1 b hbA
  match b, hne with
  | [x], _ =>
    rcases le_or_lt ((batchTokens count [x] : Int)) maxT with h | h
    · exact Or.inl h
    · refine Or.inr ⟨x, rfl, ?_⟩
      rw [batchTokens_singleton] at h
      exact h
  | x :: y :: t, _ =>
    exact Or.inl (hbound (by simp))

/-- C1 (witness): instantiation of the amended bound at a concrete batch. -/
theorem createContextBatches_token_bound_witness :
    (batchTokens approxCount [entryA, entryB] : Int) ≤ 100 ∨
      ∃ x, [entryA, entryB] = [x] ∧ (countContextItemTokens approxCount x : Int) > 100 :=
  createContextBatches_token_bound approxCount [entryA, entryB] 100 [entryA, entryB]
    (Or.inl (by decide))

/-- C2: for both providers, createContextBatches partitions its input:
every returned batch is non-empty with at most MAX_FILES_PER_BATCH = 10
items, and the batches concatenate (in order) to the input list, so no
item is dropped, duplicated or reordered. -/
theorem createContextBatches_partition :
    ∀ (count : String → Nat) (items : List ContextEntry) (maxT : Int),
      (∀ b ∈ AnthropicProvider.createContextBatches count items maxT,
          b ≠ [] ∧ b.length ≤ AnthropicProvider.MAX_FILES_PER_BATCH) ∧
      (AnthropicProvider.createContextBatches count items maxT).flatten = items ∧
      (∀ b ∈ GeminiProvider.createContextBatches count items maxT,
          b ≠ [] ∧ b.length ≤ GeminiProvider.MAX_FILES_PER_BATCH) ∧
      (GeminiProvider.createContextBatches count items maxT).flatten = items ∧
      AnthropicProvider.MAX_FILES_PER_BATCH = 10 ∧
      GeminiProvider.MAX_FILES_PER_BATCH = 10 := by
  intro count items maxT
  have hA := anthropic_createContextBatches_spec count items maxT
  refine ⟨fun b hb => ⟨(hA.1 b hb).1, (hA.1 b hb).2.1⟩, hA.2, ?_, ?_, rfl, rfl⟩
  · intro b hb
    rw [createContextBatches_eq] at hb
    exact ⟨(hA.1 b hb).1, (hA.1 b hb).2.1⟩
  · rw [createContextBatches_eq]
    exact hA.2

/-- C2 (witness): instantiation of the partition property at a concrete
batch list. -/
theorem createContextBatches_partition_witness :
    ([entryA, entryB] ≠ [] ∧
        [entryA, entryB].length ≤ AnthropicProvider.MAX_FILES_PER_BATCH) ∧
      (AnthropicProvider.createContextBatches approxCount [entryA, entryB] 100).flatten
        = [entryA, entryB] :=
  ⟨(createContextBatches_partition approxCount [entryA, entryB] 100).1
      [entryA, entryB] (by decide),
    (createContextBatches_partition approxCount [entryA, entryB] 100).2.1⟩

/-- C6: the Anthropic and Gemini batching functions are extensionally
equal: on every context list, budget and token counter they return the
same batches. -/
theorem createContextBatches_providers_agree :
    ∀ (count : String → Nat) (items : List ContextEntry) (maxT : Int),
      AnthropicProvider.createContextBatches count items maxT
        = GeminiProvider.createContextBatches count items maxT :=
  fun count items maxT => (createContextBatches_eq count items maxT).symm

/-- C3 (counterexample): the claim's definition of a rate-limit error
("HTTP status 429 / rate-limit or overloaded message") does not match the
Gemini provider, which only inspects the message for "quota",
"rate limit" or "resource exhausted".  On an HTTP 429 error with the
standard reason phrase "Too Many Requests" and two context items, the
claim predicts a retry with the first item (which would succeed here),
but GeminiProvider.processRequestWithContext rethrows the error; the
Anthropic provider, which does check status 429, retries and succeeds. -/
theorem gemini_429_not_retried_counterexample :
    rateLimit429Err.status = some 429 ∧
      twoEntries.length = 2 ∧
      send429 twoEntries = Except.error rateLimit429Err ∧
      GeminiProvider.processRequestWithContext send429 twoEntries
        = Except.error rateLimit429Err ∧
      GeminiProvider.processRequestWithContext send429
          (twoEntries.take ((twoEntries.length + 1) / 2))
        = Except.ok "recovered" ∧
      AnthropicProvider.processRequestWithContext send429 twoEntries
        = Except.ok "recovered" ∧
      (Except.error rateLimit429Err : Except ApiError String) ≠ Except.ok "recovered" := by
  have hGerr : GeminiProvider.processRequestWithContext send429 twoEntries
      = Except.error rateLimit429Err := by
    rw [gemini_processRequest_error send429 twoEntries rateLimit429Err rfl]
    rw [if_neg]
    decide
  have hGhalf : GeminiProvider.processRequestWithContext send429
      (twoEntries.take ((twoEntries.length + 1) / 2)) = Except.ok "recovered" := by
    exact gemini_processRequest_ok send429 _ _ rfl
  have hAfull : AnthropicProvider.processRequestWithContext send429 twoEntries
      = Except.ok "recovered" := by
    rw [anthropic_processRequest_error send429 twoEntries rateLimit429Err rfl]
    rw [if_pos (by decide)]
    exact anthropic_processRequest_ok send429 _ _ rfl
  exact ⟨rfl, rfl, rfl, hGerr, hGhalf, hAfull, by simp⟩

/-- C3 (amended): when a request made by processRequestWithContext fails
with what the provider itself classifies as a rate-limit error — for
Anthropic a lowercased message containing "overloaded" or "rate limit"
or an HTTP status of 429, for Gemini a lowercased message containing
"quota", "rate limit" or "resource exhausted" (status 429 alone does not
count) — and more than one context item is present, the provider retries
with the first ceil(n/2) = (n+1)/2 of the n context items; any other
error, and a rate-limit error with at most one context item, is
rethrown. -/
theorem processRequestWithContext_rate_limit_retry :
    ∀ (send : List ContextEntry → Except ApiError String)
      (items : List ContextEntry) (e : ApiError),
      send items = Except.error e →
      (AnthropicProvider.isRateLimitError e = true → 1 < items.length →
        AnthropicProvider.processRequestWithContext send items
          = AnthropicProvider.processRequestWithContext send
              (items.take ((items.length + 1) / 2))) ∧
      (¬(AnthropicProvider.isRateLimitError e = true ∧ 1 < items.length) →
        AnthropicProvider.processRequestWithContext send items = Except.error e) ∧
      (GeminiProvider.isRateLimitError e = true → 1 < items.length →
        GeminiProvider.processRequestWithContext send items
          = GeminiProvider.processRequestWithContext send
              (items.take ((items.length + 1) / 2))) ∧
      (¬(GeminiProvider.isRateLimitError e = true ∧ 1 < items.length) →
        GeminiProvider.processRequestWithContext send items = Except.error e) := by
  intro send items e h
  refine ⟨?_, ?_, ?_, ?_⟩
  · intro hrl hlen
    rw [anthropic_processRequest_error send items e h, if_pos ⟨hrl, hlen⟩]
  · intro hneg
    rw [anthropic_processRequest_error send items e h, if_neg hneg]
  · intro hrl hlen
    rw [gemini_processRequest_error send items e h, if_pos ⟨hrl, hlen⟩]
  · intro hneg
    rw [gemini_processRequest_error send items e h, if_neg hneg]

/-- C3 (witness): on a message-level rate-limit error with two context
items, both providers retry with the first item. -/
theorem processRequestWithContext_rate_limit_retry_witness :
    AnthropicProvider.processRequestWithContext retrySend twoEntries
      = AnthropicProvider.processRequestWithContext retrySend
          (twoEntries.take ((twoEntries.length + 1) / 2)) ∧
    GeminiProvider.processRequestWithContext retrySend twoEntries
      = GeminiProvider.processRequestWithContext retrySend
          (twoEntries.take ((twoEntries.length + 1) / 2)) :=
  ⟨(processRequestWithContext_rate_limit_retry retrySend twoEntries retryErr
      rfl).1 (by decide) (by decide),
   (processRequestWithContext_rate_limit_retry retrySend twoEntries retryErr
      rfl).2.2.1 (by decide) (by decide)⟩

/-- C4: addToHistory caps the chat history at 20 entries: starting from a
history of at most 20 entries, the result has at most 20 entries, the new
entry is the last element, and when the history already held 20 entries
the oldest (first) entry is dropped while the remaining entries keep
their relative order (the result is exactly the old tail followed by the
new entry). -/
theorem addToHistory_cap :
    ∀ (history : List ContextManager.HistoryEntry) (role content : String),
      history.length ≤ 20 →
      (ContextManager.addToHistory history role content).length ≤ 20 ∧
      (ContextManager.addToHistory history role content).getLast?
        = some ⟨role, content⟩ ∧
      (history.length < 20 →
        ContextManager.addToHistory history role content
          = history ++ [⟨role, content⟩]) ∧
      (history.length = 20 →
        ContextManager.addToHistory history role content
          = history.tail ++ [⟨role, content⟩]) := by
  intro history role content hle
  unfold ContextManager.addToHistory
  by_cases h20 : history.length = 20
  · rw [if_pos (by simp [h20])]
    cases history with
    | nil => simp at h20
    | cons hd t =>
      refine ⟨?_, ?_, ?_, ?_⟩
      · simp only [List.length_cons] at h20
        simp only [List.cons_append, List.tail_cons, List.length_append,
          List.length_cons, List.length_nil]
        omega
      · simp only [List.cons_append, List.tail_cons]
        exact List.getLast?_concat t
      · intro hlt
        exact absurd h20 (Nat.ne_of_lt hlt)
      · intro _
        simp
  · rw [if_neg (by simp; omega)]
    refine ⟨by simp; omega, List.getLast?_concat history, fun _ => rfl, fun h => ?_⟩
    exact absurd h h20

/-- C4 (witness): adding to an empty history. -/
theorem addToHistory_cap_witness :
    (ContextManager.addToHistory [] "user" "hi").length ≤ 20 ∧
      (ContextManager.addToHistory [] "user" "hi").getLast? = some ⟨"user", "hi"⟩ ∧
      (([] : List ContextManager.HistoryEntry).length < 20 →
        ContextManager.addToHistory [] "user" "hi" = [] ++ [⟨"user", "hi"⟩]) ∧
      (([] : List ContextManager.HistoryEntry).length = 20 →
        ContextManager.addToHistory [] "user" "hi"
          = ([] : List ContextManager.HistoryEntry).tail ++ [⟨"user", "hi"⟩]) :=
  addToHistory_cap [] "user" "hi" (by decide)

/-- C5: sortContextItemsByRelevance returns a permutation of its input,
and whenever the input contains exactly one item of type "current-file",
that item is placed first.  The source copies the array before sorting,
so the input array itself is never modified (the embedding is pure). -/
theorem sortContextItemsByRelevance_spec :
    ∀ (items : List ContextEntry),
      (AnthropicProvider.sortContextItemsByRelevance items).Perm items ∧
      (GeminiProvider.sortContextItemsByRelevance items).Perm items ∧
      ∀ x ∈ items, isCurrentFileEntry x = true →
        items.countP isCurrentFileEntry = 1 →
        (AnthropicProvider.sortContextItemsByRelevance items).head? = some x ∧
        (GeminiProvider.sortContextItemsByRelevance items).head? = some x := by
  intro items
  refine ⟨List.mergeSort_perm items relevanceLe,
    List.mergeSort_perm items relevanceLe, ?_⟩
  intro x hx hcf hone
  exact ⟨mergeSort_relevance_head items x hx hcf hone,
    mergeSort_relevance_head items x hx hcf hone⟩

/-- C5 (witness): a three-element list whose unique current-file item sits
in the middle is sorted with that item first. -/
theorem sortContextItemsByRelevance_spec_witness :
    (AnthropicProvider.sortContextItemsByRelevance sampleItems).head?
        = some currentFileEntry ∧
      (GeminiProvider.sortContextItemsByRelevance sampleItems).head?
        = some currentFileEntry :=
  (sortContextItemsByRelevance_spec sampleItems).2.2 currentFileEntry
    (by decide) (by decide) (by decide)

/-- C7 (counterexample): the sync claim fails as stated.  The constructor
filters non-existent paths out of the loaded list without writing the
filtered list back, and addToSelectedContext with an existing but
already-selected path is a no-op, so after such a call the stored value
(still ["a", "b"]) differs from the in-memory list (["a"]). -/
theorem selectedContext_storage_sync_counterexample :
    ghostEnv.pathExists "a" = true ∧
      ContextManager.getSelectedContextItems
          (ContextManager.addToSelectedContext ghostEnv ghostState "a") = ["a"] ∧
      (ContextManager.addToSelectedContext ghostEnv ghostState "a").globalState
          ContextManager.SELECTED_CONTEXT_KEY
        = some (ContextManager.StoredValue.paths ["a", "b"]) ∧
      ¬ ContextManager.storageInSync
          (ContextManager.addToSelectedContext ghostEnv ghostState "a") := by
  refine ⟨rfl, by decide, by decide, ?_⟩
  unfold ContextManager.storageInSync
  decide

/-- C7 (amended): removeFromSelectedContext and clearSelectedContext
always leave the value stored under 'ai-coder.selectedContext' equal to
the in-memory selected-context list; addToSelectedContext with an
existing path either leaves the whole state unchanged (when the
normalized path is already selected) or re-establishes that equality
(when the path is newly appended and persisted). -/
theorem selectedContext_storage_sync :
    ∀ (env : ContextManager.Env) (st : ContextManager.CMState) (itemPath : String),
      (env.pathExists itemPath = true →
        ContextManager.addToSelectedContext env st itemPath = st ∨
          ContextManager.storageInSync
            (ContextManager.addToSelectedContext env st itemPath)) ∧
      ContextManager.storageInSync
        (ContextManager.removeFromSelectedContext st itemPath) ∧
      ContextManager.storageInSync (ContextManager.clearSelectedContext st) := by
  intro env st itemPath
  refine ⟨?_, ?_, ?_⟩
  · intro hex
    by_cases hc : env.normalizePath itemPath ∈ st.selectedContextItems
    · left
      simp [ContextManager.addToSelectedContext, hex, hc]
    · right
      simp [ContextManager.addToSelectedContext, hex, hc,
        ContextManager.storageInSync, ContextManager.getSelectedContextItems,
        ContextManager.globalStateUpdate]
  · simp [ContextManager.storageInSync, ContextManager.removeFromSelectedContext,
      ContextManager.getSelectedContextItems, ContextManager.globalStateUpdate]
  · simp [ContextManager.storageInSync, ContextManager.clearSelectedContext,
      ContextManager.getSelectedContextItems, ContextManager.globalStateUpdate]

/-- C7 (witness): instantiation of the amended sync property on a concrete
state. -/
theorem selectedContext_storage_sync_witness :
    (ContextManager.addToSelectedContext probeEnv probeState "x" = probeState ∨
      ContextManager.storageInSync
        (ContextManager.addToSelectedContext probeEnv probeState "x")) ∧
    ContextManager.storageInSync
      (ContextManager.removeFromSelectedContext probeState "x") ∧
    ContextManager.storageInSync (ContextManager.clearSelectedContext probeState) :=
  ⟨(selectedContext_storage_sync probeEnv probeState "x").1 (by decide),
   (selectedContext_storage_sync probeEnv probeState "x").2.1,
   (selectedContext_storage_sync probeEnv probeState "x").2.2⟩

/-- C8: addToSelectedContext is a no-op on failure: a non-existent path,
or an existing path whose normalization is already selected, leaves the
entire state (the in-memory list and everything persisted, including the
'ai-coder.selectedContext' value) unchanged. -/
theorem addToSelectedContext_noop :
    ∀ (env : ContextManager.Env) (st : ContextManager.CMState) (itemPath : String),
      (env.pathExists itemPath = false →
        ContextManager.addToSelectedContext env st itemPath = st) ∧
      (env.pathExists itemPath = true →
        st.selectedContextItems.contains (env.normalizePath itemPath) = true →
        ContextManager.addToSelectedContext env st itemPath = st) := by
  intro env st itemPath
  constructor
  · intro h
    unfold ContextManager.addToSelectedContext
    rw [if_pos h]
  · intro hex hc
    have hm : env.normalizePath itemPath ∈ st.selectedContextItems :=
      List.elem_iff.mp hc
    simp [ContextManager.addToSelectedContext, hex, hm]

/-- C8 (witness): instantiation with a missing path and with an
already-selected path. -/
theorem addToSelectedContext_noop_witness :
    ContextManager.addToSelectedContext probeEnv probeState "y" = probeState ∧
      ContextManager.addToSelectedContext probeEnv probeState "x" = probeState :=
  ⟨(addToSelectedContext_noop probeEnv probeState "y").1 (by decide),
   (addToSelectedContext_noop probeEnv probeState "x").2 (by decide) (by decide)⟩

/-- C9: the selected-context list never contains duplicates: the
constructor preserves distinctness of the loaded saved paths (filtering
preserves Nodup), and each of addToSelectedContext (which appends only
paths not yet selected), removeFromSelectedContext (a filter) and
clearSelectedContext preserves distinctness. -/
theorem selectedContext_nodup :
    ∀ (env : ContextManager.Env) (store : String → Option ContextManager.StoredValue)
      (st : ContextManager.CMState) (itemPath : String),
      ((∀ saved, store ContextManager.SELECTED_CONTEXT_KEY
            = some (ContextManager.StoredValue.paths saved) → saved.Nodup) →
        (ContextManager.mkContextManager env store).selectedContextItems.Nodup) ∧
      (st.selectedContextItems.Nodup →
        (ContextManager.addToSelectedContext env st itemPath).selectedContextItems.Nodup) ∧
      (st.selectedContextItems.Nodup →
        (ContextManager.removeFromSelectedContext st itemPath).selectedContextItems.Nodup) ∧
      (ContextManager.clearSelectedContext st).selectedContextItems.Nodup := by
  intro env store st itemPath
  refine ⟨?_, ?_, ?_, ?_⟩
  · intro hsaved
    simp only [ContextManager.mkContextManager]
    cases hs : store ContextManager.SELECTED_CONTEXT_KEY with
    | none => simp
    | some v =>
      cases v with
      | paths saved => exact (hsaved saved hs).filter _
      | dirMeta m => simp
  · intro hnd
    by_cases hex : env.pathExists itemPath = false
    · simpa [ContextManager.addToSelectedContext, hex] using hnd
    · have hex2 : env.pathExists itemPath = true := by
        cases h : env.pathExists itemPath
        · exact absurd h hex
        · rfl
      by_cases hc : env.normalizePath itemPath ∈ st.selectedContextItems
      · simpa [ContextManager.addToSelectedContext, hex2, hc] using hnd
      · rcases Bool.eq_false_or_eq_true (env.isDirectory (env.normalizePath itemPath))
          with hd | hd <;>
          simp [ContextManager.addToSelectedContext, hex2, hc, hd,
            List.nodup_append, hnd]
  · intro hnd
    exact hnd.filter _
  · exact List.nodup_nil

/-- C9 (witness): instantiation of the distinctness invariant on concrete
states. -/
theorem selectedContext_nodup_witness :
    (ContextManager.mkContextManager ghostEnv ghostStore).selectedContextItems.Nodup ∧
      (ContextManager.addToSelectedContext ghostEnv ghostState "a").selectedContextItems.Nodup ∧
      (ContextManager.removeFromSelectedContext ghostState "a").selectedContextItems.Nodup ∧
      (ContextManager.clearSelectedContext ghostState).selectedContextItems.Nodup :=
  ⟨(selectedContext_nodup ghostEnv ghostStore ghostState "a").1
      (by intro saved h; simp [ghostStore] at h; subst h; decide),
   (selectedContext_nodup ghostEnv ghostStore ghostState "a").2.1 (by decide),
   (selectedContext_nodup ghostEnv ghostStore ghostState "a").2.2.1 (by decide),
   (selectedContext_nodup ghostEnv ghostStore ghostState "a").2.2.2⟩

/-- C10: countTokens is total: it always returns a (non-negative) natural
number; when the tokenizer succeeds it returns the token-list length, and
when the tokenizer throws it returns the fallback estimate
Math.ceil(length / 4) = (length + 3) / 4. -/
theorem countTokens_total :
    ∀ (encode : String → Except String (List Nat)) (text : String),
      0 ≤ countTokens encode text ∧
      (∀ err, encode text = .error err →
        countTokens encode text = (text.length + 3) / 4) ∧
      (∀ toks, encode text = .ok toks →
        countTokens encode text = toks.length) := by
  intro enc t
  refine ⟨Nat.zero_le _, ?_, ?_⟩
  · intro err h
    unfold countTokens
    rw [h]
    exact ceil_div_four_toNat t.length
  · intro toks h
    unfold countTokens
    rw [h]

/-- C10 (witness): a throwing tokenizer on "hello" falls back to
ceil(5 / 4) = 2 = (5 + 3) / 4. -/
theorem countTokens_total_witness :
    countTokens brokenEncode "hello" = ("hello".length + 3) / 4 :=
  (countTokens_total brokenEncode "hello").2.1 "tokenizer failed" rfl
